import Mathlib

/-!
Verification of the color-harmony scoring pipeline in
`src/app/api/score/route.ts` (fashon-scorer).

The numeric code is embedded over `ℚ` (exact rational arithmetic standing
for the JavaScript number computations).  Each definition mirrors one
function or code block of the route handler; `POST` models the request
orchestrator with the external collaborators (image decoding via sharp,
k-means clustering) passed in as fallible function parameters.
-/

namespace FashionScorer

/-- Embedding of `rgbToHsv` (route.ts lines 9-24): converts an RGB triple to
`(h, s, v)` with the hue scaled to degrees and saturation/value to percent.
The JavaScript `switch (max)` tries `case r` first, then `case g`, then
`case b`, which the nested `if` chain reproduces; `h` stays `0` when
`max = min`. -/
def rgbToHsv (r g b : ℚ) : ℚ × ℚ × ℚ :=
  let r := r / 255
  let g := g / 255
  let b := b / 255
  let mx := max r (max g b)
  let mn := min r (min g b)
  let v := mx
  let d := mx - mn
  let s := if mx = 0 then 0 else d / mx
  let h :=
    if mx = mn then 0
    else if mx = r then ((g - b) / d + (if g < b then 6 else 0)) / 6
    else if mx = g then ((b - r) / d + 2) / 6
    else ((r - g) / d + 4) / 6
  (h * 360, s * 100, v * 100)

/-- The circular hue difference computed first in `calculateHueScore`
(route.ts line 28): `Math.min(Math.abs(h1 - h2), 360 - Math.abs(h1 - h2))`. -/
def hueDiff (h1 h2 : ℚ) : ℚ :=
  min |h1 - h2| (360 - |h1 - h2|)

/-- The branch structure of `calculateHueScore` applied to the already
computed difference (route.ts lines 29-31). -/
def hueScoreOfDiff (diff : ℚ) : ℚ :=
  if diff ≤ 30 then 100
  else if 150 ≤ diff ∧ diff ≤ 210 then 90
  else max 0 (60 - diff)

/-- Embedding of `calculateHueScore` (route.ts lines 27-32). -/
def calculateHueScore (h1 h2 : ℚ) : ℚ :=
  hueScoreOfDiff (hueDiff h1 h2)

/-- Embedding of `calculateValueScore` (route.ts lines 35-37):
`(Math.abs(v1 - v2) / 100) * 100`. -/
def calculateValueScore (v1 v2 : ℚ) : ℚ :=
  |v1 - v2| / 100 * 100

/-- Embedding of `calculateSaturationScore` (route.ts lines 40-42):
`100 - (Math.abs(s1 - s2) / 100) * 100`. -/
def calculateSaturationScore (s1 s2 : ℚ) : ℚ :=
  100 - |s1 - s2| / 100 * 100

/-- The `weights.hue` constant (route.ts line 76). -/
def weightsHue : ℚ := 0.5

/-- The `weights.value` constant (route.ts line 76). -/
def weightsValue : ℚ := 0.3

/-- The `weights.saturation` constant (route.ts line 76). -/
def weightsSaturation : ℚ := 0.2

/-- Embedding of the `colorPairs` construction (route.ts lines 77-84): the
nested loop `for i in [0, k); for j in [i+1, k)` pushing `(i, j)`.  The inner
loop over `j` is `List.range' (i+1) (k - (i+1))`. -/
def colorPairs (k : ℕ) : List (ℕ × ℕ) :=
  (List.range k).flatMap fun i =>
    (List.range' (i + 1) (k - (i + 1))).map fun j => (i, j)

/-- HSV view of one centroid, as built on route.ts line 73:
`rgbToHsv(rgb[0], rgb[1], rgb[2])` (out-of-range reads default to `0`,
never exercised on 3-element centroids). -/
def hsvOf (rgb : List ℚ) : ℚ × ℚ × ℚ :=
  rgbToHsv (rgb.getD 0 0) (rgb.getD 1 0) (rgb.getD 2 0)

/-- The weighted pair score of two HSV colors (route.ts lines 96-100):
`hueScore * weights.hue + valueScore * weights.value +
saturationScore * weights.saturation`. -/
def pairScore (c1 c2 : ℚ × ℚ × ℚ) : ℚ :=
  calculateHueScore c1.1 c2.1 * weightsHue
    + calculateValueScore c1.2.2 c2.2.2 * weightsValue
    + calculateSaturationScore c1.2.1 c2.2.1 * weightsSaturation

/-- The pair score of the pair `p` of centroid indices into `hsvs`
(route.ts lines 92-101: `dominantHsvs[pair[0]]`, `dominantHsvs[pair[1]]`). -/
def pairScoreAt (hsvs : List (ℚ × ℚ × ℚ)) (p : ℕ × ℕ) : ℚ :=
  pairScore (hsvs.getD p.1 (0, 0, 0)) (hsvs.getD p.2 (0, 0, 0))

/-- The `totalScore` accumulator after the `forEach` loop
(route.ts lines 91-102). -/
def totalScore (k : ℕ) (hsvs : List (ℚ × ℚ × ℚ)) : ℚ :=
  ((colorPairs k).map (pairScoreAt hsvs)).sum

/-- The full-precision `finalScore` (route.ts line 104):
`totalScore / colorPairs.length`. -/
def finalScore (k : ℕ) (hsvs : List (ℚ × ℚ × ℚ)) : ℚ :=
  totalScore k hsvs / ((colorPairs k).length : ℚ)

/-- Rounding to two decimals as on route.ts line 108:
`Math.round(finalScore * 100) / 100` (`Math.round` is `⌊x + 1/2⌋`,
which is Mathlib's `round`). -/
def round2 (x : ℚ) : ℚ :=
  ((round (x * 100) : ℤ) : ℚ) / 100

/-- The shape of a successful response body:
`{ score, colors }` with integer display channels. -/
structure ScoreResult where
  score : ℚ
  colors : List (List ℤ)
  deriving DecidableEq, Repr

/-- The scoring tail of `POST` (route.ts lines 73-110) as a function of the
pair count `k` and the centroids returned by clustering: convert to HSV,
score all pairs, and shape the result; when the pair list is empty the early
return on lines 86-88 yields score `100`.  Centroid channels are rounded
with `Math.round` for display in both branches (lines 87 and 109). -/
def scoreCentroids (k : ℕ) (dominantRgbs : List (List ℚ)) : ScoreResult :=
  let dominantHsvs := dominantRgbs.map hsvOf
  if (colorPairs k).length = 0 then
    ⟨100, dominantRgbs.map fun c => c.map fun x => round x⟩
  else
    ⟨round2 (finalScore k dominantHsvs),
     dominantRgbs.map fun c => c.map fun x => round x⟩

/-- The `k = 3` constant (route.ts line 68). -/
def kDefault : ℕ := 3

/-- The fixed clustering seed (route.ts line 69: `{ seed: 42 }`). -/
def seedDefault : ℕ := 42

/-- Embedding of the pixel-extraction loop (route.ts lines 62-65):
`for (let i = 0; i < data.length; i += info.channels)
   pixels.push([data[i], data[i+1], data[i+2]])`.
Out-of-range reads default to `0`; a zero channel count (which would not
terminate in JavaScript) is mapped to the empty result. -/
def extractPixels (c : ℕ) (data : List ℚ) : List (List ℚ) :=
  if c = 0 ∨ data.length = 0 then []
  else [data.getD 0 0, data.getD 1 0, data.getD 2 0] :: extractPixels c (data.drop c)
termination_by data.length
decreasing_by
  rename_i h
  push_neg at h
  simp only [List.length_drop]
  omega

/-- The three outcomes observable at the HTTP boundary of `POST`:
a JSON score result, the 400 `File is required.` response, and the
generic 500 `Failed to process image.` response from the `catch`. -/
inductive Response where
  | success : ScoreResult → Response
  | missingInput : Response
  | processingFailure : Response
  deriving DecidableEq

/-- Embedding of the `POST` orchestrator (route.ts lines 47-116).  The
external collaborators are parameters: `decode` stands for the
sharp resize/raw decode returning the flat buffer and its channel count,
`cluster` for `kmeans(pixels, k, { seed })` returning the centroids; either
may fail, and any such failure is caught by the single `try/catch` and
becomes the generic failure response.  The missing-file check (lines 51-53)
happens before any processing. -/
def POST {α : Type} (file : Option α)
    (decode : α → Except Unit (List ℚ × ℕ))
    (cluster : List (List ℚ) → ℕ → ℕ → Except Unit (List (List ℚ))) :
    Response :=
  match file with
  | none => Response.missingInput
  | some f =>
    match decode f with
    | Except.error _ => Response.processingFailure
    | Except.ok (data, channels) =>
      match cluster (extractPixels channels data) kDefault seedDefault with
      | Except.error _ => Response.processingFailure
      | Except.ok dominantRgbs =>
        Response.success (scoreCentroids kDefault dominantRgbs)

/-! ### Basic facts about the sub-score functions -/

/-- The `/ 100 * 100` in `calculateValueScore` cancels: the value score is the
absolute brightness difference. -/
lemma calculateValueScore_eq (v1 v2 : ℚ) : calculateValueScore v1 v2 = |v1 - v2| := by
  rw [calculateValueScore, div_mul_cancel₀]
  norm_num

/-- The saturation score is `100` minus the absolute saturation difference. -/
lemma calculateSaturationScore_eq (s1 s2 : ℚ) :
    calculateSaturationScore s1 s2 = 100 - |s1 - s2| := by
  rw [calculateSaturationScore, div_mul_cancel₀]
  norm_num

/-- The hue score lands in `[0, 100]` whatever the two hues are. -/
lemma calculateHueScore_mem (h1 h2 : ℚ) :
    0 ≤ calculateHueScore h1 h2 ∧ calculateHueScore h1 h2 ≤ 100 := by
  rw [calculateHueScore, hueScoreOfDiff]
  split_ifs with hd1 hd2
  · norm_num
  · norm_num
  · push_neg at hd1
    refine ⟨le_max_left _ _, ?_⟩
    rw [max_le_iff]
    constructor <;> linarith

/-- The circular hue difference of two hues in `[0, 360)` lies in `[0, 180]`. -/
lemma hueDiff_mem {h1 h2 : ℚ} (h10 : 0 ≤ h1) (h11 : h1 < 360) (h20 : 0 ≤ h2)
    (h21 : h2 < 360) : 0 ≤ hueDiff h1 h2 ∧ hueDiff h1 h2 ≤ 180 := by
  rw [hueDiff]
  have ha : |h1 - h2| < 360 := abs_sub_lt_iff.mpr ⟨by linarith, by linarith⟩
  have ha0 : 0 ≤ |h1 - h2| := abs_nonneg _
  refine ⟨le_min ha0 (by linarith), ?_⟩
  rcases le_total |h1 - h2| (360 - |h1 - h2|) with h | h
  · rw [min_eq_left h]; linarith
  · rw [min_eq_right h]; linarith

/-- The hue score only depends on the hues through their circular difference,
which is symmetric. -/
lemma calculateHueScore_comm (h1 h2 : ℚ) :
    calculateHueScore h1 h2 = calculateHueScore h2 h1 := by
  rw [calculateHueScore, calculateHueScore, hueDiff, hueDiff, abs_sub_comm]

/-! ### Range of the RGB to HSV conversion -/

/-- Auxiliary bound: a quotient `x / d` with `-d ≤ x ≤ d` and `0 < d` lies in
`[-1, 1]`. -/
lemma div_self_bounds (x d : ℚ) (hd : 0 < d) (hl : -d ≤ x) (hu : x ≤ d) :
    -1 ≤ x / d ∧ x / d ≤ 1 :=
  ⟨by rw [le_div_iff₀ hd]; linarith, by rw [div_le_one hd]; linarith⟩

/-- For channels in `[0, 255]`, `rgbToHsv` produces a hue in `[0, 360)` and
saturation and value in `[0, 100]`. -/
lemma rgbToHsv_mem (r g b : ℚ) (h0r : 0 ≤ r) (h1r : r ≤ 255) (h0g : 0 ≤ g)
    (h1g : g ≤ 255) (h0b : 0 ≤ b) (h1b : b ≤ 255) :
    (0 ≤ (rgbToHsv r g b).1 ∧ (rgbToHsv r g b).1 < 360) ∧
    (0 ≤ (rgbToHsv r g b).2.1 ∧ (rgbToHsv r g b).2.1 ≤ 100) ∧
    (0 ≤ (rgbToHsv r g b).2.2 ∧ (rgbToHsv r g b).2.2 ≤ 100) := by
  have c0r : (0 : ℚ) ≤ r / 255 := by positivity
  have c1r : r / 255 ≤ 1 := (div_le_one (by norm_num)).mpr (by linarith)
  have c0g : (0 : ℚ) ≤ g / 255 := by positivity
  have c1g : g / 255 ≤ 1 := (div_le_one (by norm_num)).mpr (by linarith)
  have c0b : (0 : ℚ) ≤ b / 255 := by positivity
  have c1b : b / 255 ≤ 1 := (div_le_one (by norm_num)).mpr (by linarith)
  simp only [rgbToHsv]
  set r' := r / 255 with hr'
  set g' := g / 255 with hg'
  set b' := b / 255 with hb'
  set mx := max r' (max g' b') with hmx
  set mn := min r' (min g' b') with hmn
  have hrmx : r' ≤ mx := le_max_left _ _
  have hgmx : g' ≤ mx := le_trans (le_max_left _ _) (le_max_right _ _)
  have hbmx : b' ≤ mx := le_trans (le_max_right _ _) (le_max_right _ _)
  have hmnr : mn ≤ r' := min_le_left _ _
  have hmng : mn ≤ g' := le_trans (min_le_right _ _) (min_le_left _ _)
  have hmnb : mn ≤ b' := le_trans (min_le_right _ _) (min_le_right _ _)
  have h0mn : 0 ≤ mn := le_min c0r (le_min c0g c0b)
  have h1mx : mx ≤ 1 := max_le c1r (max_le c1g c1b)
  have h0mx : 0 ≤ mx := le_trans c0r hrmx
  have hmnmx : mn ≤ mx := le_trans hmnr hrmx
  refine ⟨?_, ?_, ?_⟩
  · split_ifs with h1 h2 h3 h4
    · norm_num
    · have hd : 0 < mx - mn := sub_pos.mpr (lt_of_le_of_ne hmnmx (Ne.symm h1))
      have hq := div_self_bounds (g' - b') (mx - mn) hd (by linarith) (by linarith)
      have hq0 : (g' - b') / (mx - mn) < 0 := div_neg_of_neg_of_pos (by linarith) hd
      constructor
      · linarith [hq.1]
      · linarith [hq0]
    · have hd : 0 < mx - mn := sub_pos.mpr (lt_of_le_of_ne hmnmx (Ne.symm h1))
      push_neg at h3
      have hq := div_self_bounds (g' - b') (mx - mn) hd (by linarith) (by linarith)
      have hq0 : 0 ≤ (g' - b') / (mx - mn) := div_nonneg (by linarith) hd.le
      constructor
      · linarith [hq0]
      · linarith [hq.2]
    · have hd : 0 < mx - mn := sub_pos.mpr (lt_of_le_of_ne hmnmx (Ne.symm h1))
      have hq := div_self_bounds (b' - r') (mx - mn) hd (by linarith) (by linarith)
      constructor
      · linarith [hq.1]
      · linarith [hq.2]
    · have hd : 0 < mx - mn := sub_pos.mpr (lt_of_le_of_ne hmnmx (Ne.symm h1))
      have hq := div_self_bounds (r' - g') (mx - mn) hd (by linarith) (by linarith)
      constructor
      · linarith [hq.1]
      · linarith [hq.2]
  · split_ifs with h0
    · norm_num
    · have hpos : 0 < mx := lt_of_le_of_ne h0mx (Ne.symm h0)
      have hq0 : 0 ≤ (mx - mn) / mx := div_nonneg (by linarith) hpos.le
      have hq1 : (mx - mn) / mx ≤ 1 := (div_le_one hpos).mpr (by linarith)
      constructor
      · linarith [hq0]
      · linarith [hq1]
  · constructor
    · linarith
    · linarith

/-- An achromatic input `(c, c, c)` yields hue `0` and saturation `0` (value is
the normalized channel). -/
lemma rgbToHsv_achromatic (c : ℚ) : rgbToHsv c c c = (0, 0, c / 255 * 100) := by
  have hmx : max (c / 255) (max (c / 255) (c / 255)) = c / 255 := by
    rw [max_self, max_self]
  have hmn : min (c / 255) (min (c / 255) (c / 255)) = c / 255 := by
    rw [min_self, min_self]
  simp only [rgbToHsv, hmx, hmn, sub_self, zero_div, eq_self_iff_true, if_true,
    ite_self, zero_mul]

/-! ### The pair list -/

/-- Summing a function over `List.range` is the `Finset.range` sum. -/
lemma sum_map_range (f : ℕ → ℕ) (n : ℕ) :
    ((List.range n).map f).sum = ∑ i in Finset.range n, f i := by
  induction n with
  | zero => simp
  | succ m ih =>
    rw [List.range_succ, Finset.sum_range_succ, List.map_append, List.sum_append, ih]
    simp

/-- The nested pair loop produces exactly `C(k, 2)` pairs. -/
lemma colorPairs_length (k : ℕ) : (colorPairs k).length = k.choose 2 := by
  rw [colorPairs, List.length_flatMap]
  have h1 : (List.map (List.length ∘ fun i => (List.range' (i + 1) (k - (i + 1))).map
      fun j => (i, j)) (List.range k)) = (List.range k).map fun i => k - (i + 1) := by
    apply List.map_congr_left
    intro i _
    simp [List.length_range']
  rw [h1, sum_map_range]
  have h2 : ∀ i ∈ Finset.range k, k - (i + 1) = k - 1 - i := fun i _ => by omega
  rw [Finset.sum_congr rfl h2, Finset.sum_range_reflect (fun j => j) k]
  have h3 := Finset.sum_range_id_mul_two k
  have h4 := Nat.choose_two_right k
  omega

/-- The pair list contains exactly the index pairs `i < j < k`. -/
lemma colorPairs_mem (k : ℕ) (p : ℕ × ℕ) :
    p ∈ colorPairs k ↔ p.1 < p.2 ∧ p.2 < k := by
  obtain ⟨a, c⟩ := p
  constructor
  · intro hp
    rw [colorPairs, List.mem_flatMap] at hp
    obtain ⟨i, hi, hp⟩ := hp
    rw [List.mem_map] at hp
    obtain ⟨j, hj, heq⟩ := hp
    rw [List.mem_range] at hi
    rw [List.mem_range'_1] at hj
    injection heq with e1 e2
    subst e1; subst e2
    constructor <;> omega
  · rintro ⟨h1, h2⟩
    rw [colorPairs, List.mem_flatMap]
    refine ⟨a, List.mem_range.mpr (by omega), ?_⟩
    rw [List.mem_map]
    exact ⟨c, List.mem_range'_1.mpr ⟨by omega, by omega⟩, rfl⟩

/-- No pair is enumerated twice. -/
lemma colorPairs_nodup (k : ℕ) : (colorPairs k).Nodup := by
  rw [colorPairs, List.nodup_flatMap]
  constructor
  · intro i _
    exact (List.nodup_range' ..).map fun j j' h => by injection h
  · apply (List.pairwise_lt_range k).imp
    intro i i' hlt p hp hp'
    rw [List.mem_map] at hp hp'
    obtain ⟨j, _, rfl⟩ := hp
    obtain ⟨j', _, heq⟩ := hp'
    injection heq with e1 e2
    omega

/-- With fewer than two centroids the pair loop runs zero times. -/
lemma colorPairs_eq_nil {k : ℕ} (hk : k ≤ 1) : colorPairs k = [] := by
  interval_cases k <;> rfl

/-! ### Aggregation bounds -/

/-- Bounds on the elements of a rational list bound its sum. -/
lemma list_sum_bounds (l : List ℚ) (a b : ℚ) (h : ∀ x ∈ l, a ≤ x ∧ x ≤ b) :
    (l.length : ℚ) * a ≤ l.sum ∧ l.sum ≤ (l.length : ℚ) * b := by
  induction l with
  | nil => simp
  | cons x xs ih =>
    have hx := h x (List.mem_cons_self x xs)
    have hih := ih fun y hy => h y (List.mem_cons_of_mem x hy)
    simp only [List.sum_cons, List.length_cons]
    push_cast
    constructor
    · nlinarith [hih.1, hx.1]
    · nlinarith [hih.2, hx.2]

/-- `Math.round` is monotone on exact rationals. -/
lemma round_mono_rat {x y : ℚ} (h : x ≤ y) : round x ≤ round y := by
  rw [round_eq, round_eq]
  exact Int.floor_mono (by linarith)

/-- Two-decimal rounding maps `[0, 100]` into `[0, 100]`. -/
lemma round2_mem {x : ℚ} (h0 : 0 ≤ x) (h1 : x ≤ 100) :
    0 ≤ round2 x ∧ round2 x ≤ 100 := by
  have l0 : (0 : ℤ) ≤ round (x * 100) := by
    have := round_mono_rat (show (0 : ℚ) ≤ x * 100 by nlinarith)
    simpa using this
  have l1 : round (x * 100) ≤ 10000 := by
    have := round_mono_rat (show x * 100 ≤ (10000 : ℚ) by nlinarith)
    simpa using this
  rw [round2]
  constructor
  · positivity
  · rw [div_le_iff₀ (by norm_num : (0:ℚ) < 100)]
    norm_num
    exact_mod_cast l1

/-- Rounding a channel in `[0, 255]` stays in `[0, 255]` (as an integer). -/
lemma round_channel_mem {x : ℚ} (h0 : 0 ≤ x) (h1 : x ≤ 255) :
    0 ≤ round x ∧ round x ≤ 255 := by
  constructor
  · have := round_mono_rat h0
    simpa using this
  · have := round_mono_rat h1
    simpa using this

/-- A `getD` read from a list of HSV colors preserves any property that also
holds of the default color. -/
lemma getD_pres {P : ℚ × ℚ × ℚ → Prop} (l : List (ℚ × ℚ × ℚ))
    (h : ∀ c ∈ l, P c) (hd : P (0, 0, 0)) (n : ℕ) : P (l.getD n (0, 0, 0)) := by
  by_cases hn : n < l.length
  · rw [List.getD_eq_getElem _ _ hn]
    exact h _ (List.getElem_mem hn)
  · rw [List.getD_eq_default _ _ (le_of_not_lt hn)]
    exact hd

/-- The saturation/value components of a pair of HSV colors in range bound the
weighted pair score into `[0, 100]`. -/
lemma pairScore_mem {c1 c2 : ℚ × ℚ × ℚ}
    (hs1 : 0 ≤ c1.2.1 ∧ c1.2.1 ≤ 100) (hv1 : 0 ≤ c1.2.2 ∧ c1.2.2 ≤ 100)
    (hs2 : 0 ≤ c2.2.1 ∧ c2.2.1 ≤ 100) (hv2 : 0 ≤ c2.2.2 ∧ c2.2.2 ≤ 100) :
    0 ≤ pairScore c1 c2 ∧ pairScore c1 c2 ≤ 100 := by
  obtain ⟨hh0, hh1⟩ := calculateHueScore_mem c1.1 c2.1
  have hdv : 0 ≤ |c1.2.2 - c2.2.2| ∧ |c1.2.2 - c2.2.2| ≤ 100 :=
    ⟨abs_nonneg _, abs_le.mpr ⟨by linarith [hv1.1, hv2.2], by linarith [hv1.2, hv2.1]⟩⟩
  have hds : 0 ≤ |c1.2.1 - c2.2.1| ∧ |c1.2.1 - c2.2.1| ≤ 100 :=
    ⟨abs_nonneg _, abs_le.mpr ⟨by linarith [hs1.1, hs2.2], by linarith [hs1.2, hs2.1]⟩⟩
  rw [pairScore, calculateValueScore_eq, calculateSaturationScore_eq,
    weightsHue, weightsValue, weightsSaturation]
  norm_num
  constructor
  · nlinarith [hdv.1, hds.2]
  · nlinarith [hdv.2, hds.1]

/-- Every HSV color obtained by converting a centroid whose channels lie in
`[0, 255]` has saturation and value in `[0, 100]`. -/
lemma hsvOf_mem {rgb : List ℚ} (h : ∀ x ∈ rgb, 0 ≤ x ∧ x ≤ 255) :
    (0 ≤ (hsvOf rgb).2.1 ∧ (hsvOf rgb).2.1 ≤ 100) ∧
    (0 ≤ (hsvOf rgb).2.2 ∧ (hsvOf rgb).2.2 ≤ 100) := by
  have hc : ∀ n : ℕ, 0 ≤ rgb.getD n 0 ∧ rgb.getD n 0 ≤ 255 := by
    intro n
    by_cases hn : n < rgb.length
    · rw [List.getD_eq_getElem _ _ hn]
      exact h _ (List.getElem_mem hn)
    · rw [List.getD_eq_default _ _ (le_of_not_lt hn)]
      norm_num
  have := rgbToHsv_mem (rgb.getD 0 0) (rgb.getD 1 0) (rgb.getD 2 0)
    (hc 0).1 (hc 0).2 (hc 1).1 (hc 1).2 (hc 2).1 (hc 2).2
  exact ⟨this.2.1, this.2.2⟩

/-- With all centroid channels in `[0, 255]`, every per-pair score lies in
`[0, 100]` (the out-of-range default color `(0, 0, 0)` also qualifies). -/
lemma pairScoreAt_mem {rgbs : List (List ℚ)}
    (h : ∀ c ∈ rgbs, ∀ x ∈ c, 0 ≤ x ∧ x ≤ 255) (p : ℕ × ℕ) :
    0 ≤ pairScoreAt (rgbs.map hsvOf) p ∧ pairScoreAt (rgbs.map hsvOf) p ≤ 100 := by
  have hall : ∀ c ∈ rgbs.map hsvOf,
      (0 ≤ c.2.1 ∧ c.2.1 ≤ 100) ∧ (0 ≤ c.2.2 ∧ c.2.2 ≤ 100) := by
    intro c hc
    rw [List.mem_map] at hc
    obtain ⟨rgb, hrgb, rfl⟩ := hc
    exact hsvOf_mem (h rgb hrgb)
  have h1 := getD_pres (rgbs.map hsvOf) hall (by norm_num) p.1
  have h2 := getD_pres (rgbs.map hsvOf) hall (by norm_num) p.2
  exact pairScore_mem h1.1 h1.2 h2.1 h2.2

/-- The full-precision mean score lies in `[0, 100]` whenever there is at
least one pair and all centroid channels lie in `[0, 255]`. -/
lemma finalScore_mem {k : ℕ} {rgbs : List (List ℚ)}
    (h : ∀ c ∈ rgbs, ∀ x ∈ c, 0 ≤ x ∧ x ≤ 255)
    (hk : (colorPairs k).length ≠ 0) :
    0 ≤ finalScore k (rgbs.map hsvOf) ∧ finalScore k (rgbs.map hsvOf) ≤ 100 := by
  have hb := list_sum_bounds ((colorPairs k).map (pairScoreAt (rgbs.map hsvOf))) 0 100 ?_
  · rw [List.length_map] at hb
    have hlen : 0 < ((colorPairs k).length : ℚ) := by
      have := Nat.pos_of_ne_zero hk
      exact_mod_cast this
    rw [finalScore, totalScore]
    constructor
    · apply div_nonneg _ hlen.le
      have := hb.1
      linarith
    · rw [div_le_iff₀ hlen]
      have := hb.2
      linarith
  · intro x hx
    rw [List.mem_map] at hx
    obtain ⟨p, _, rfl⟩ := hx
    exact pairScoreAt_mem h p

/-! ### Pixel extraction -/

/-- Reading the dropped tail shifts `getD` indices. -/
lemma getD_drop (l : List ℚ) (n m : ℕ) : (l.drop n).getD m 0 = l.getD (n + m) 0 := by
  rw [List.getD, List.getD, List.get?_drop]

/-- One unfolding step of the extraction loop. -/
lemma extractPixels_step (c : ℕ) (data : List ℚ) :
    extractPixels c data = if c = 0 ∨ data.length = 0 then []
      else [data.getD 0 0, data.getD 1 0, data.getD 2 0] ::
        extractPixels c (data.drop c) := by
  rw [extractPixels]

/-- Pixel extraction with four channels never reads the alpha byte: buffers of
equal length agreeing away from indices `≡ 3 (mod 4)` extract identically. -/
lemma extractPixels_congr (n : ℕ) : ∀ d1 d2 : List ℚ, d1.length = n → d2.length = n →
    (∀ i, i < n → i % 4 ≠ 3 → d1.getD i 0 = d2.getD i 0) →
    extractPixels 4 d1 = extractPixels 4 d2 := by
  induction n using Nat.strong_induction_on with
  | _ n ih =>
    intro d1 d2 h1 h2 hag
    rw [extractPixels_step 4 d1, extractPixels_step 4 d2]
    by_cases hn : n = 0
    · rw [if_pos (Or.inr (h1.trans hn)), if_pos (Or.inr (h2.trans hn))]
    · rw [if_neg (by push_neg; exact ⟨by norm_num, h1.trans_ne hn⟩),
        if_neg (by push_neg; exact ⟨by norm_num, h2.trans_ne hn⟩)]
      have hread : ∀ m : ℕ, m ≤ 2 → d1.getD m 0 = d2.getD m 0 := by
        intro m hm
        by_cases hmn : m < n
        · exact hag m hmn (by omega)
        · rw [List.getD_eq_default _ _ (by omega : d1.length ≤ m),
            List.getD_eq_default _ _ (by omega : d2.length ≤ m)]
      congr 1
      · rw [hread 0 (by norm_num), hread 1 (by norm_num), hread 2 (by norm_num)]
      · apply ih (n - 4) (by omega) _ _ (by rw [List.length_drop, h1]) (by rw [List.length_drop, h2])
        intro i hi him
        rw [getD_drop, getD_drop]
        exact hag (4 + i) (by omega) (by omega)

/-! ### Claims -/

/-- C1: the pair score is `0.5·hue + 0.3·value + 0.2·saturation`, where the
value score is `|v1 - v2|` and the saturation score is `100 - |s1 - s2|`; and
for `K ≥ 2` centroids the full-precision final score is the arithmetic mean of
the pair scores over all `C(K,2)` unordered pairs of distinct centroid
indices, each unordered pair exactly once and no self-pairs. -/
theorem claim_C1 :
    (∀ h1 s1 v1 h2 s2 v2 : ℚ,
      pairScore (h1, s1, v1) (h2, s2, v2) =
        0.5 * calculateHueScore h1 h2 + 0.3 * |v1 - v2| + 0.2 * (100 - |s1 - s2|)) ∧
    (∀ (k : ℕ) (hsvs : List (ℚ × ℚ × ℚ)), 2 ≤ k →
      (colorPairs k).length = k.choose 2 ∧
      (colorPairs k).Nodup ∧
      (∀ p : ℕ × ℕ, p ∈ colorPairs k ↔ p.1 < p.2 ∧ p.2 < k) ∧
      finalScore k hsvs =
        ((colorPairs k).map (pairScoreAt hsvs)).sum / ((k.choose 2 : ℕ) : ℚ)) := by
  constructor
  · intro h1 s1 v1 h2 s2 v2
    simp only [pairScore]
    rw [calculateValueScore_eq, calculateSaturationScore_eq,
      weightsHue, weightsValue, weightsSaturation]
    ring
  · intro k hsvs _
    refine ⟨colorPairs_length k, colorPairs_nodup k, colorPairs_mem k, ?_⟩
    rw [finalScore, totalScore, colorPairs_length k]

/-- Witness for C1: the instance `K = 3` on a concrete HSV list. -/
theorem claim_C1_witness :
    (colorPairs 3).length = Nat.choose 3 2 ∧
    (colorPairs 3).Nodup ∧
    (∀ p : ℕ × ℕ, p ∈ colorPairs 3 ↔ p.1 < p.2 ∧ p.2 < 3) ∧
    finalScore 3 [(0, 100, 100), (180, 100, 100), (0, 100, 100)] =
      ((colorPairs 3).map
        (pairScoreAt [(0, 100, 100), (180, 100, 100), (0, 100, 100)])).sum /
        ((Nat.choose 3 2 : ℕ) : ℚ) :=
  claim_C1.2 3 [(0, 100, 100), (180, 100, 100), (0, 100, 100)] (by norm_num)

/-- C2: the hue score is the branch function applied to the circular distance
`min(|h1-h2|, 360-|h1-h2|)`; for hues in `[0, 360)` that distance lies in
`[0, 180]`; the branch function takes the claimed boundary values at 30, 150,
210, 211 and 31; and the score is symmetric in its two hues. -/
theorem claim_C2 :
    (∀ h1 h2 : ℚ,
      calculateHueScore h1 h2 = hueScoreOfDiff (min |h1 - h2| (360 - |h1 - h2|))) ∧
    (∀ h1 h2 : ℚ, 0 ≤ h1 → h1 < 360 → 0 ≤ h2 → h2 < 360 →
      0 ≤ hueDiff h1 h2 ∧ hueDiff h1 h2 ≤ 180) ∧
    hueScoreOfDiff 30 = 100 ∧ hueScoreOfDiff 150 = 90 ∧ hueScoreOfDiff 210 = 90 ∧
    hueScoreOfDiff 211 = 0 ∧ hueScoreOfDiff 31 = 29 ∧
    (∀ h1 h2 : ℚ, calculateHueScore h1 h2 = calculateHueScore h2 h1) := by
  refine ⟨fun h1 h2 => rfl, fun h1 h2 a b c d => hueDiff_mem a b c d,
    ?_, ?_, ?_, ?_, ?_, calculateHueScore_comm⟩
  all_goals norm_num [hueScoreOfDiff]

/-- Witness for C2: the distance bound applied at hues 10 and 200. -/
theorem claim_C2_witness : 0 ≤ hueDiff 10 200 ∧ hueDiff 10 200 ≤ 180 :=
  claim_C2.2.1 10 200 (by norm_num) (by norm_num) (by norm_num) (by norm_num)

/-- C3: for channels in `[0, 255]` the conversion yields hue in `[0, 360)`,
saturation in `[0, 100]` and value in `[0, 100]`; achromatic inputs
(`R = G = B`) yield saturation `0` and hue `0`. -/
theorem claim_C3 :
    (∀ r g b : ℚ, 0 ≤ r → r ≤ 255 → 0 ≤ g → g ≤ 255 → 0 ≤ b → b ≤ 255 →
      (0 ≤ (rgbToHsv r g b).1 ∧ (rgbToHsv r g b).1 < 360) ∧
      (0 ≤ (rgbToHsv r g b).2.1 ∧ (rgbToHsv r g b).2.1 ≤ 100) ∧
      (0 ≤ (rgbToHsv r g b).2.2 ∧ (rgbToHsv r g b).2.2 ≤ 100)) ∧
    (∀ c : ℚ, (rgbToHsv c c c).1 = 0 ∧ (rgbToHsv c c c).2.1 = 0) := by
  refine ⟨rgbToHsv_mem, fun c => ?_⟩
  rw [rgbToHsv_achromatic]
  exact ⟨rfl, rfl⟩

/-- Witness for C3: the range statement applied to the triple (10, 20, 30). -/
theorem claim_C3_witness :
    (0 ≤ (rgbToHsv 10 20 30).1 ∧ (rgbToHsv 10 20 30).1 < 360) ∧
    (0 ≤ (rgbToHsv 10 20 30).2.1 ∧ (rgbToHsv 10 20 30).2.1 ≤ 100) ∧
    (0 ≤ (rgbToHsv 10 20 30).2.2 ∧ (rgbToHsv 10 20 30).2.2 ≤ 100) :=
  claim_C3.1 10 20 30 (by norm_num) (by norm_num) (by norm_num) (by norm_num)
    (by norm_num) (by norm_num)

/-- C5: with `K = 0` or `K = 1` centroids the enumerated pair list is empty,
the returned score is exactly `100`, and the centroid list of the result still
has length `K`. -/
theorem claim_C5 (k : ℕ) (rgbs : List (List ℚ)) (hk : k ≤ 1)
    (hlen : rgbs.length = k) :
    colorPairs k = [] ∧ (scoreCentroids k rgbs).score = 100 ∧
    (scoreCentroids k rgbs).colors.length = k := by
  have hnil := colorPairs_eq_nil hk
  refine ⟨hnil, ?_, ?_⟩
  · simp [scoreCentroids, hnil]
  · simp only [scoreCentroids]
    split_ifs <;> simp [hlen]

/-- Witness for C5: a single gray-ish centroid. -/
theorem claim_C5_witness :
    colorPairs 1 = [] ∧ (scoreCentroids 1 [[17, 40, 200]]).score = 100 ∧
    (scoreCentroids 1 [[17, 40, 200]]).colors.length = 1 :=
  claim_C5 1 [[17, 40, 200]] (by norm_num) (by norm_num)

/-- C8: when the maximum normalized channel is `0` (pure black) the guard in
`rgbToHsv` makes the whole result `(0, 0, 0)` without evaluating `d / max`;
whenever the division is evaluated its denominator is strictly positive, so no
division by zero occurs; and the saturation is always a well-defined rational
in `[0, 100]`, so nothing undefined can propagate into any score. -/
theorem claim_C8 (r g b : ℚ) (h0r : 0 ≤ r) (h1r : r ≤ 255) (h0g : 0 ≤ g)
    (h1g : g ≤ 255) (h0b : 0 ≤ b) (h1b : b ≤ 255) :
    (max (r / 255) (max (g / 255) (b / 255)) = 0 → rgbToHsv r g b = (0, 0, 0)) ∧
    (max (r / 255) (max (g / 255) (b / 255)) ≠ 0 →
      0 < max (r / 255) (max (g / 255) (b / 255))) ∧
    (0 ≤ (rgbToHsv r g b).2.1 ∧ (rgbToHsv r g b).2.1 ≤ 100) := by
  have hmax0 : 0 ≤ max (r / 255) (max (g / 255) (b / 255)) :=
    le_trans (by positivity) (le_max_left _ _)
  refine ⟨?_, fun h => lt_of_le_of_ne hmax0 (Ne.symm h),
    (rgbToHsv_mem r g b h0r h1r h0g h1g h0b h1b).2.1⟩
  intro h
  have hr : r = 0 := by
    have h1 : r / 255 ≤ 0 := h ▸ le_max_left _ _
    have h2 : (0 : ℚ) ≤ r / 255 := by positivity
    have : r / 255 = 0 := le_antisymm h1 h2
    rcases div_eq_zero_iff.mp this with h' | h'
    · exact h'
    · norm_num at h'
  have hg : g = 0 := by
    have h1 : g / 255 ≤ 0 := h ▸ le_trans (le_max_left _ _) (le_max_right _ _)
    have h2 : (0 : ℚ) ≤ g / 255 := by positivity
    have : g / 255 = 0 := le_antisymm h1 h2
    rcases div_eq_zero_iff.mp this with h' | h'
    · exact h'
    · norm_num at h'
  have hb : b = 0 := by
    have h1 : b / 255 ≤ 0 := h ▸ le_trans (le_max_right _ _) (le_max_right _ _)
    have h2 : (0 : ℚ) ≤ b / 255 := by positivity
    have : b / 255 = 0 := le_antisymm h1 h2
    rcases div_eq_zero_iff.mp this with h' | h'
    · exact h'
    · norm_num at h'
  subst hr; subst hg; subst hb
  rw [rgbToHsv_achromatic]
  norm_num

/-- Witness for C8: the pure-black triple. -/
theorem claim_C8_witness :
    (max ((0:ℚ) / 255) (max ((0:ℚ) / 255) ((0:ℚ) / 255)) = 0 →
      rgbToHsv 0 0 0 = (0, 0, 0)) ∧
    (max ((0:ℚ) / 255) (max ((0:ℚ) / 255) ((0:ℚ) / 255)) ≠ 0 →
      0 < max ((0:ℚ) / 255) (max ((0:ℚ) / 255) ((0:ℚ) / 255))) ∧
    (0 ≤ (rgbToHsv 0 0 0).2.1 ∧ (rgbToHsv 0 0 0).2.1 ≤ 100) :=
  claim_C8 0 0 0 (by norm_num) (by norm_num) (by norm_num) (by norm_num)
    (by norm_num) (by norm_num)

/-- C4: on every successful analysis the returned score lies in `[0, 100]`
and is the full-precision final score rounded to two decimals (the early
return for an empty pair list yields the constant `100`), and the colors list
has exactly `K` entries in which each channel is the centroid channel rounded
to the nearest integer, an integer in `[0, 255]` when the centroid channels
lie in `[0, 255]`. -/
theorem claim_C4 (k : ℕ) (rgbs : List (List ℚ)) (hlen : rgbs.length = k)
    (hch : ∀ c ∈ rgbs, ∀ x ∈ c, 0 ≤ x ∧ x ≤ 255) :
    (0 ≤ (scoreCentroids k rgbs).score ∧ (scoreCentroids k rgbs).score ≤ 100) ∧
    ((colorPairs k).length ≠ 0 →
      (scoreCentroids k rgbs).score = round2 (finalScore k (rgbs.map hsvOf))) ∧
    ((colorPairs k).length = 0 → (scoreCentroids k rgbs).score = 100) ∧
    (scoreCentroids k rgbs).colors = rgbs.map (fun c => c.map fun x => round x) ∧
    (scoreCentroids k rgbs).colors.length = k ∧
    (∀ col ∈ (scoreCentroids k rgbs).colors, ∀ y ∈ col, 0 ≤ y ∧ y ≤ 255) := by
  have hcolors : (scoreCentroids k rgbs).colors =
      rgbs.map fun c => c.map fun x => round x := by
    simp only [scoreCentroids]
    split_ifs <;> rfl
  have hscore : (scoreCentroids k rgbs).score =
      if (colorPairs k).length = 0 then 100
      else round2 (finalScore k (rgbs.map hsvOf)) := by
    simp only [scoreCentroids]
    split_ifs <;> rfl
  refine ⟨?_, ?_, ?_, hcolors, ?_, ?_⟩
  · rw [hscore]
    split_ifs with hp
    · norm_num
    · have hm := finalScore_mem hch hp
      exact round2_mem hm.1 hm.2
  · intro hp
    rw [hscore, if_neg hp]
  · intro hp
    rw [hscore, if_pos hp]
  · rw [hcolors, List.length_map, hlen]
  · rw [hcolors]
    intro col hcol y hy
    rw [List.mem_map] at hcol
    obtain ⟨c, hc, rfl⟩ := hcol
    rw [List.mem_map] at hy
    obtain ⟨x, hx, rfl⟩ := hy
    exact round_channel_mem (hch c hc x hx).1 (hch c hc x hx).2

/-- Witness for C4: the red/cyan/red centroids. -/
theorem claim_C4_witness :
    (0 ≤ (scoreCentroids 3 [[255, 0, 0], [0, 255, 255], [255, 0, 0]]).score ∧
      (scoreCentroids 3 [[255, 0, 0], [0, 255, 255], [255, 0, 0]]).score ≤ 100) ∧
    ((colorPairs 3).length ≠ 0 →
      (scoreCentroids 3 [[255, 0, 0], [0, 255, 255], [255, 0, 0]]).score =
        round2 (finalScore 3 ([[255, 0, 0], [0, 255, 255], [255, 0, 0]].map hsvOf))) ∧
    ((colorPairs 3).length = 0 →
      (scoreCentroids 3 [[255, 0, 0], [0, 255, 255], [255, 0, 0]]).score = 100) ∧
    (scoreCentroids 3 [[255, 0, 0], [0, 255, 255], [255, 0, 0]]).colors =
      ([[255, 0, 0], [0, 255, 255], [255, 0, 0]] : List (List ℚ)).map
        (fun c => c.map fun x => round x) ∧
    (scoreCentroids 3 [[255, 0, 0], [0, 255, 255], [255, 0, 0]]).colors.length = 3 ∧
    (∀ col ∈ (scoreCentroids 3 [[255, 0, 0], [0, 255, 255], [255, 0, 0]]).colors,
      ∀ y ∈ col, 0 ≤ y ∧ y ≤ 255) :=
  claim_C4 3 [[255, 0, 0], [0, 255, 255], [255, 0, 0]] (by norm_num) (by decide)

/-- C6: for three centroids with hues 0, 180, 0 and equal saturation and value
the pair scores are 65, 70 and 65, and the returned rounded score is exactly
66.67, the two-decimal rounding of the mean 200/3. -/
theorem claim_C6 (s v : ℚ) :
    (colorPairs 3).map (pairScoreAt [(0, s, v), (180, s, v), (0, s, v)]) =
      [65, 70, 65] ∧
    finalScore 3 [(0, s, v), (180, s, v), (0, s, v)] = 200 / 3 ∧
    round2 (finalScore 3 [(0, s, v), (180, s, v), (0, s, v)]) = 6667 / 100 ∧
    (∀ rgbs : List (List ℚ),
      rgbs.map hsvOf = [(0, s, v), (180, s, v), (0, s, v)] →
      (scoreCentroids 3 rgbs).score = 6667 / 100) := by
  have hpairs : colorPairs 3 = [(0, 1), (0, 2), (1, 2)] := by decide
  have habs : |(0 : ℚ) - 180| = 180 := by
    rw [abs_of_nonpos] <;> norm_num
  have hd180 : hueDiff 0 180 = 180 := by
    rw [hueDiff, habs]
    norm_num
  have hd180' : hueDiff 180 0 = 180 := by
    rw [hueDiff, abs_sub_comm, habs]
    norm_num
  have hd0 : hueDiff 0 0 = 0 := by
    rw [hueDiff]
    norm_num
  have hh180 : calculateHueScore 0 180 = 90 := by
    rw [calculateHueScore, hd180, hueScoreOfDiff]
    norm_num
  have hh180' : calculateHueScore 180 0 = 90 := by
    rw [calculateHueScore, hd180', hueScoreOfDiff]
    norm_num
  have hh0 : calculateHueScore 0 0 = 100 := by
    rw [calculateHueScore, hd0, hueScoreOfDiff]
    norm_num
  have hvv : calculateValueScore v v = 0 := by
    rw [calculateValueScore_eq, sub_self, abs_zero]
  have hss : calculateSaturationScore s s = 100 := by
    rw [calculateSaturationScore_eq, sub_self, abs_zero, sub_zero]
  have hp1 : pairScore (0, s, v) (180, s, v) = 65 := by
    simp only [pairScore]
    rw [hh180, hvv, hss, weightsHue, weightsValue, weightsSaturation]
    norm_num
  have hp2 : pairScore (0, s, v) (0, s, v) = 70 := by
    simp only [pairScore]
    rw [hh0, hvv, hss, weightsHue, weightsValue, weightsSaturation]
    norm_num
  have hp3 : pairScore (180, s, v) (0, s, v) = 65 := by
    simp only [pairScore]
    rw [hh180', hvv, hss, weightsHue, weightsValue, weightsSaturation]
    norm_num
  have hmap : (colorPairs 3).map (pairScoreAt [(0, s, v), (180, s, v), (0, s, v)]) =
      [65, 70, 65] := by
    rw [hpairs]
    simp only [List.map_cons, List.map_nil, pairScoreAt, List.getD_cons_zero,
      List.getD_cons_succ]
    rw [hp1, hp2, hp3]
  have hfs : finalScore 3 [(0, s, v), (180, s, v), (0, s, v)] = 200 / 3 := by
    rw [finalScore, totalScore, hmap, hpairs]
    norm_num
  have hround : round2 ((200 : ℚ) / 3) = 6667 / 100 := by
    rw [round2]
    norm_num [round_eq]
  refine ⟨hmap, hfs, by rw [hfs, hround], ?_⟩
  intro rgbs hconv
  have hne : ¬(colorPairs 3).length = 0 := by
    rw [hpairs]
    norm_num
  simp only [scoreCentroids, hconv, if_neg hne]
  rw [hfs, hround]

/-- Witness for C6: red/cyan/red centroids realize the hue pattern 0, 180, 0
with equal saturation and value. -/
theorem claim_C6_witness :
    (scoreCentroids 3 [[255, 0, 0], [0, 255, 255], [255, 0, 0]]).score =
      6667 / 100 :=
  (claim_C6 100 100).2.2.2 [[255, 0, 0], [0, 255, 255], [255, 0, 0]] (by
    simp only [List.map_cons, List.map_nil]
    norm_num [hsvOf, rgbToHsv, List.getD_cons_zero, List.getD_cons_succ])

/-- Evaluation of the orchestrator when no file is provided. -/
lemma POST_none {α : Type} (decode : α → Except Unit (List ℚ × ℕ))
    (cluster : List (List ℚ) → ℕ → ℕ → Except Unit (List (List ℚ))) :
    POST none decode cluster = Response.missingInput := rfl

/-- Evaluation of the orchestrator when decoding fails. -/
lemma POST_decode_err {α : Type} (file : α)
    (decode : α → Except Unit (List ℚ × ℕ))
    (cluster : List (List ℚ) → ℕ → ℕ → Except Unit (List (List ℚ)))
    (h : decode file = Except.error ()) :
    POST (some file) decode cluster = Response.processingFailure := by
  simp [POST, h]

/-- Evaluation of the orchestrator when clustering fails. -/
lemma POST_cluster_err {α : Type} (file : α)
    (decode : α → Except Unit (List ℚ × ℕ))
    (cluster : List (List ℚ) → ℕ → ℕ → Except Unit (List (List ℚ)))
    (data : List ℚ) (channels : ℕ)
    (h1 : decode file = Except.ok (data, channels))
    (h2 : cluster (extractPixels channels data) kDefault seedDefault =
      Except.error ()) :
    POST (some file) decode cluster = Response.processingFailure := by
  simp [POST, h1, h2]

/-- Evaluation of the orchestrator when every stage succeeds. -/
lemma POST_ok {α : Type} (file : α)
    (decode : α → Except Unit (List ℚ × ℕ))
    (cluster : List (List ℚ) → ℕ → ℕ → Except Unit (List (List ℚ)))
    (data : List ℚ) (channels : ℕ) (rgbs : List (List ℚ))
    (h1 : decode file = Except.ok (data, channels))
    (h2 : cluster (extractPixels channels data) kDefault seedDefault =
      Except.ok rgbs) :
    POST (some file) decode cluster =
      Response.success (scoreCentroids kDefault rgbs) := by
  simp [POST, h1, h2]

/-- C7: the missing-input error is reported exactly when no file is provided,
before any processing; any decode or clustering failure surfaces as the single
generic processing-failure response with no further detail and no partial
result; and when every stage succeeds the response is the shaped score. -/
theorem claim_C7 {α : Type} (file : Option α)
    (decode : α → Except Unit (List ℚ × ℕ))
    (cluster : List (List ℚ) → ℕ → ℕ → Except Unit (List (List ℚ))) :
    (POST file decode cluster = Response.missingInput ↔ file = none) ∧
    (∀ f, file = some f → decode f = Except.error () →
      POST file decode cluster = Response.processingFailure) ∧
    (∀ f data channels, file = some f → decode f = Except.ok (data, channels) →
      cluster (extractPixels channels data) kDefault seedDefault = Except.error () →
      POST file decode cluster = Response.processingFailure) ∧
    (∀ f data channels rgbs, file = some f → decode f = Except.ok (data, channels) →
      cluster (extractPixels channels data) kDefault seedDefault = Except.ok rgbs →
      POST file decode cluster = Response.success (scoreCentroids kDefault rgbs)) := by
  refine ⟨?_, ?_, ?_, ?_⟩
  · cases file with
    | none => simp [POST_none]
    | some f =>
      simp only [iff_false, reduceCtorEq]
      cases hd : decode f with
      | error e =>
        cases e
        rw [POST_decode_err f decode cluster hd]
        simp
      | ok pr =>
        obtain ⟨data, ch⟩ := pr
        cases hc : cluster (extractPixels ch data) kDefault seedDefault with
        | error e =>
          cases e
          rw [POST_cluster_err f decode cluster data ch hd hc]
          simp
        | ok rgbs =>
          rw [POST_ok f decode cluster data ch rgbs hd hc]
          simp
  · rintro f rfl hd
    exact POST_decode_err f decode cluster hd
  · rintro f data ch rfl hd hc
    exact POST_cluster_err f decode cluster data ch hd hc
  · rintro f data ch rgbs rfl hd hc
    exact POST_ok f decode cluster data ch rgbs hd hc

/-- Witness for C7: a concrete failing decode is folded into the generic
failure, and a missing file is reported distinctly. -/
theorem claim_C7_witness :
    (POST (some ()) (fun _ => Except.error ()) (fun _ _ _ => Except.ok [])
      = Response.missingInput ↔ (some () : Option Unit) = none) ∧
    POST (some ()) (fun _ => Except.error ()) (fun _ _ _ => Except.ok []) =
      Response.processingFailure :=
  ⟨(claim_C7 (some ()) (fun _ => Except.error ()) (fun _ _ _ => Except.ok [])).1,
   (claim_C7 (some ()) (fun _ => Except.error ()) (fun _ _ _ => Except.ok [])).2.1
     () rfl rfl⟩

/-- C9: the clustering seed is fixed at 42, and the pipeline is deterministic:
two invocations on equal inputs whose clustering collaborators agree at the
fixed seed produce identical results. -/
theorem claim_C9 :
    seedDefault = 42 ∧
    ∀ {α : Type} (file file' : Option α)
      (decode decode' : α → Except Unit (List ℚ × ℕ))
      (cluster cluster' : List (List ℚ) → ℕ → ℕ → Except Unit (List (List ℚ))),
      file = file' → decode = decode' →
      (∀ pts kk, cluster pts kk 42 = cluster' pts kk 42) →
      POST file decode cluster = POST file' decode' cluster' := by
  refine ⟨rfl, ?_⟩
  intro α file file' decode decode' cluster cluster' hf hd hcl
  subst hf
  subst hd
  have hcl' : ∀ pts kk, cluster pts kk seedDefault = cluster' pts kk seedDefault := by
    intro pts kk
    rw [show seedDefault = 42 from rfl]
    exact hcl pts kk
  cases file with
  | none => rw [POST_none, POST_none]
  | some f =>
    cases hdf : decode f with
    | error e =>
      cases e
      rw [POST_decode_err f decode cluster hdf, POST_decode_err f decode cluster' hdf]
    | ok pr =>
      obtain ⟨data, ch⟩ := pr
      cases hc : cluster (extractPixels ch data) kDefault seedDefault with
      | error e =>
        cases e
        rw [POST_cluster_err f decode cluster data ch hdf hc,
          POST_cluster_err f decode cluster' data ch hdf ((hcl' _ _).symm.trans hc)]
      | ok rgbs =>
        rw [POST_ok f decode cluster data ch rgbs hdf hc,
          POST_ok f decode cluster' data ch rgbs hdf ((hcl' _ _).symm.trans hc)]

/-- Witness for C9: two identical invocations agree. -/
theorem claim_C9_witness :
    POST (some ()) (fun _ => Except.ok ([1, 2, 3], 3))
        (fun _ _ _ => Except.ok [[1, 2, 3]]) =
      POST (some ()) (fun _ => Except.ok ([1, 2, 3], 3))
        (fun _ _ _ => Except.ok [[1, 2, 3]]) :=
  claim_C9.2 (some ()) (some ()) (fun _ => Except.ok ([1, 2, 3], 3))
    (fun _ => Except.ok ([1, 2, 3], 3)) (fun _ _ _ => Except.ok [[1, 2, 3]])
    (fun _ _ _ => Except.ok [[1, 2, 3]]) rfl rfl (fun _ _ => rfl)

/-- C10: with a four-channel decoded buffer the extraction loop reads only the
first three bytes of each pixel, so two buffers agreeing at every index not
congruent to 3 mod 4 extract identical pixels and yield identical responses. -/
theorem claim_C10 (d1 d2 : List ℚ) (hlen : d1.length = d2.length)
    (hag : ∀ i, i < d1.length → i % 4 ≠ 3 → d1.getD i 0 = d2.getD i 0) :
    extractPixels 4 d1 = extractPixels 4 d2 ∧
    ∀ {α : Type} (f : α)
      (cluster : List (List ℚ) → ℕ → ℕ → Except Unit (List (List ℚ))),
      POST (some f) (fun _ => Except.ok (d1, 4)) cluster =
        POST (some f) (fun _ => Except.ok (d2, 4)) cluster := by
  have hx : extractPixels 4 d1 = extractPixels 4 d2 :=
    extractPixels_congr d1.length d1 d2 rfl hlen.symm hag
  refine ⟨hx, ?_⟩
  intro α f cluster
  simp only [POST, hx]

/-- Witness for C10: two RGBA buffers differing only in alpha. -/
theorem claim_C10_witness :
    extractPixels 4 [1, 2, 3, 9] = extractPixels 4 [1, 2, 3, 7] :=
  (claim_C10 [1, 2, 3, 9] [1, 2, 3, 7] (by norm_num) (by decide)).1

end FashionScorer
